import Mathlib

/-!
Verification of the neo4j-python-driver core (connection pool with cluster
routing, retry machinery, addressing) against its natural-language
specification.  Python source files are shallowly embedded: pure functions
become Lean functions, stateful code becomes explicit state passing, Python
`float` timeouts and clock readings become `ℚ`, fallible code returns
`Except` / `Option`.  Components of the repository that are not part of the
provided sources (the `RoutingTable` class, the `Deadline` class and the
address resolver) are modelled from the specification and marked as such.
-/

set_option maxHeartbeats 1000000
set_option maxRecDepth 4000

namespace Neo4jSpec

/-! ## Python values and addresses (`neo4j/addressing.py`) -/

/-- A Python value that can occur as a component of an address tuple:
host names are strings, ports (and IPv6 flow/scope) are integers. -/
inductive PyVal where
  | str (s : String)
  | int (n : Int)
deriving DecidableEq

/-- `neo4j.addressing.Address` / `ResolvedAddress`: an `Address` is a tuple
of parts (2 parts for IPv4, 4 for IPv6); a `ResolvedAddress` additionally
carries the original host name in `_host_name`. -/
inductive PyAddress where
  | plain (parts : List PyVal)
  | resolved (parts : List PyVal) (hostName : String)
deriving DecidableEq

/-- `Address.__new__`: accepts an iterable of exactly 2 (IPv4) or 4 (IPv6)
parts, returning a plain `Address`; any other length raises `ValueError`
(modelled as `none`). -/
def addressNew (parts : List PyVal) : Option PyAddress :=
  if parts.length = 2 ∨ parts.length = 4 then some (PyAddress.plain parts)
  else none

/-- The tuple of parts underlying an address. -/
def PyAddress.parts : PyAddress → List PyVal
  | .plain p => p
  | .resolved p _ => p

/-- `Address.unresolved` returns `self`; `ResolvedAddress.unresolved` builds
`Address((self._host_name, *self[1:]))`, i.e. a plain address whose host is
the stored original host name and whose remaining parts are unchanged.
`none` models the `ValueError` from `Address.__new__` on a bad length. -/
def PyAddress.unresolved : PyAddress → Option PyAddress
  | .plain p => some (.plain p)
  | .resolved p hostName => addressNew (PyVal.str hostName :: p.tail)

/-- `Address.host_name` (`self[0]` for plain addresses, `self._host_name`
for resolved ones); `none` models the `IndexError` on an empty tuple. -/
def PyAddress.hostName : PyAddress → Option PyVal
  | .plain p => p.head?
  | .resolved _ h => some (.str h)

/-- Modelled from the spec: the resolver turns an unresolved address into
`ResolvedAddress`es that keep the port (and IPv6 flow/scope) parts, replace
the host by a resolved IP, and carry the original host name (needed for SNI
and routing-table membership checks).  The resolver itself
(`AsyncNetworkUtil.resolve_address`) is not among the provided sources. -/
def resolveOne (a : PyAddress) (ip : String) : PyAddress :=
  match a.parts with
  | [] => .resolved [] ""
  | PyVal.str h :: rest => .resolved (PyVal.str ip :: rest) h
  | _ :: rest => .resolved (PyVal.str ip :: rest) ""

/-! ## Retry delay generator (`neo4j/_async/work/session.py`,
`retry_delay_generator`) -/

/-- `retry_delay_generator(initial_delay, multiplier, jitter_factor)`:
the `k`-th yielded value.  At yield `k` the internal `delay` equals
`initial_delay * multiplier ^ k`; the generator computes
`jitter = jitter_factor * delay` and yields
`delay - jitter + 2 * jitter * random()`, where `rand k` is the value the
`k`-th call of `random()` returned (a value in `[0, 1)`). -/
def retryDelayGen (initialDelay multiplier jitterFactor : ℚ)
    (rand : ℕ → ℚ) (k : ℕ) : ℚ :=
  let delay := initialDelay * multiplier ^ k
  let jitter := jitterFactor * delay
  delay - jitter + 2 * jitter * rand k

/-! ## Connection pool release (`neo4j/_async/io/_pool.py`,
`AsyncIOPool.release`) -/

/-- The observable flags of a pooled Bolt connection (the connection class
itself is an external collaborator; these are the flags `release` reads). -/
structure PoolConn where
  defunct : Bool
  closed : Bool
  isReset : Bool
  inUse : Bool
deriving DecidableEq

/-- One iteration of the loop in `AsyncIOPool.release`: a reset is attempted
iff the connection is neither defunct, nor closed, nor already reset; a
protocol-level error during that reset (`resetError = true`) is caught and
only logged; afterwards `in_use` is unconditionally cleared.  Returns the
updated connection and whether a reset was attempted. -/
def releaseOne (c : PoolConn) (resetError : Bool) : PoolConn × Bool :=
  let attempt := !(c.defunct || c.closed || c.isReset)
  let c1 := if attempt && !resetError then { c with isReset := true } else c
  ({ c1 with inUse := false }, attempt)

/-- `AsyncIOPool.release(*connections)`: processes every connection with
`releaseOne` (each paired with whether its reset raised), then calls
`self.cond.notify_all()` — the returned `Bool` records that the broadcast
happened. -/
def releasePool (cs : List (PoolConn × Bool)) :
    List (PoolConn × Bool) × Bool :=
  (cs.map (fun p => releaseOne p.1 p.2), true)

/-! ## Pool admission accounting (`neo4j/_async/io/_pool.py`,
`AsyncIOPool._acquire_new_later` and friends) -/

/-- The per-address accounting state of `AsyncIOPool`:
`conns = len(self.connections[address])`,
`reservations = self.connections_reservations[address]`, and `pending` is
ghost state counting the `connection_creator` closures handed out by
`_acquire_new_later` but not yet run to completion. -/
structure AddrState where
  conns : ℕ
  reservations : ℕ
  pending : ℕ
deriving DecidableEq

/-- `AsyncIOPool._acquire_new_later(address, deadline)` under the lock:
computes `pool_size = len(connections[address]) + reservations[address]`,
decides `can_create_new_connection` (unbounded when
`max_connection_pool_size` is negative, mirroring `max_pool_size < 0 or
max_pool_size == float("inf")`), then increments
`connections_reservations[address]`, and returns `connection_creator` iff
creation was allowed.  Note: the increment in the source is unconditional —
it happens even when `None` is returned. -/
def acquireNewLater (maxSize : ℤ) (st : AddrState) : Bool × AddrState :=
  let infinitePoolSize := maxSize < 0
  let poolSize : ℤ := (st.conns : ℤ) + (st.reservations : ℤ)
  let canCreate := infinitePoolSize || decide (poolSize < maxSize)
  (canCreate,
    { st with
      reservations := st.reservations + 1
      pending := st.pending + (if canCreate then 1 else 0) })

/-- The transitions of the per-address pool accounting:
`reserve` is `_acquire_new_later`; `createSuccess` is a granted
`connection_creator` succeeding (append connection, decrement reservation);
`createFailure` is a granted creator failing (decrement reservation only);
`deactivate` closes and removes idle connections; `close` drains the
address's connections.  `release` changes no counts and is omitted. -/
inductive PoolStep (maxSize : ℤ) : AddrState → AddrState → Prop where
  | reserve (st : AddrState) :
      PoolStep maxSize st (acquireNewLater maxSize st).2
  | createSuccess (st : AddrState)
      (hp : 0 < st.pending) (hr : 0 < st.reservations) :
      PoolStep maxSize st
        ⟨st.conns + 1, st.reservations - 1, st.pending - 1⟩
  | createFailure (st : AddrState)
      (hp : 0 < st.pending) (hr : 0 < st.reservations) :
      PoolStep maxSize st
        ⟨st.conns, st.reservations - 1, st.pending - 1⟩
  | deactivate (st : AddrState) (k : ℕ) (hk : k ≤ st.conns) :
      PoolStep maxSize st ⟨st.conns - k, st.reservations, st.pending⟩
  | close (st : AddrState) :
      PoolStep maxSize st ⟨0, st.reservations, st.pending⟩

/-- The capacity invariant claimed by the specification:
`len(connections[a]) + reservations[a] ≤ max_pool_size` whenever the
maximum is finite (non-negative in this model). -/
def poolSizeInvariant (maxSize : ℤ) (st : AddrState) : Prop :=
  maxSize < 0 ∨ (st.conns : ℤ) + (st.reservations : ℤ) ≤ maxSize

/-! ## Routing-pool acquire validation (`neo4j/_async/io/_pool.py`,
`AsyncNeo4jPool.acquire`, lines 721–736, with `neo4j/api.py`,
`check_access_mode`) -/

/-- Errors that the synchronous prologue of `AsyncNeo4jPool.acquire` can
raise before any acquisition work happens. -/
inductive AcquireCheckError where
  | clientErrorBadAccessMode
  | clientErrorBadTimeout
  | clientErrorBadAcquisitionTimeout
  | deadlineRejectsNegative
  | configurationError
deriving DecidableEq

/-- Python truthiness of a timeout value (`None` or `float`): `not timeout`
is true exactly for `None` and `0`. -/
def timeoutFalsy : Option ℚ → Bool
  | none => true
  | some x => decide (x = 0)

/-- Modelled from the spec: `Deadline.from_timeout_or_deadline(x)` (the
`Deadline` class is not among the provided sources) "accepts None, a finite
non-negative seconds value, or another Deadline; rejects negatives". -/
def deadlineFromTimeout (t : Option ℚ) : Except AcquireCheckError Unit :=
  match t with
  | none => .ok ()
  | some x => if x < 0 then .error .deadlineRejectsNegative else .ok ()

/-- `neo4j.api.check_access_mode`: `None` maps to WRITE; anything other
than READ or WRITE raises `ConfigurationError`. -/
def checkAccessMode (m : Option String) :
    Except AcquireCheckError String :=
  match m with
  | none => .ok "WRITE"
  | some s =>
      if s = "READ" ∨ s = "WRITE" then .ok s
      else .error .configurationError

/-- The synchronous validation prologue of `AsyncNeo4jPool.acquire`
(everything before the routing-table refresh): raise `ClientError` if
`access_mode not in (WRITE_ACCESS, READ_ACCESS)`, raise `ClientError` if
`not timeout`, raise `ClientError` if `not acquisition_timeout`, then build
`Deadline.from_timeout_or_deadline(timeout)` and run
`check_access_mode(access_mode)`.  Note that `acquisition_timeout` is only
checked for truthiness here; it reaches no deadline constructor until after
the routing refresh. -/
def acquirePrologue (accessMode : Option String)
    (timeout acquisitionTimeout : Option ℚ) :
    Except AcquireCheckError String :=
  if ¬(accessMode = some "WRITE" ∨ accessMode = some "READ") then
    .error .clientErrorBadAccessMode
  else if timeoutFalsy timeout then
    .error .clientErrorBadTimeout
  else if timeoutFalsy acquisitionTimeout then
    .error .clientErrorBadAcquisitionTimeout
  else do
    deadlineFromTimeout timeout
    checkAccessMode accessMode

/-! ## Routing tables (`neo4j/_routing.py` is not among the provided
sources; the `RoutingTable` class is modelled from the specification) -/

/-- The role tag of one record in a routing response. -/
inductive Role where
  | route
  | read
  | write
deriving DecidableEq

/-- One raw routing-info record as returned by `connection.route(...)`:
`new_routing_info[0]` with its `servers` (role-tagged address groups, in
server order), `ttl`, and optional `db` entry (`some d` when the server
reported a database name). -/
structure RoutingInfoRecord where
  servers : List (Role × List PyAddress)
  ttl : ℚ
  db : Option String
deriving DecidableEq

/-- Modelled from the spec: the per-database `RoutingTable` — "three
ordered sets {routers, readers, writers}, the TTL seconds, a creation
timestamp, an `initial_routers` set (seeded at pool creation), and a flag
`initialized_without_writers`". -/
structure RoutingTable where
  database : Option String
  routers : List PyAddress
  readers : List PyAddress
  writers : List PyAddress
  initialRouters : List PyAddress
  initializedWithoutWriters : Bool
  lastUpdatedTime : ℚ
  ttl : ℚ
deriving DecidableEq

/-- Modelled from the spec: the `RoutingTable` constructor.  The initial
router set is seeded from the given routers, the creation timestamp is the
current time, and `initialized_without_writers` records whether the writer
set is empty. -/
def mkRoutingTable (database : Option String)
    (routers readers writers : List PyAddress) (ttl now : ℚ) :
    RoutingTable :=
  { database := database
    routers := routers
    readers := readers
    writers := writers
    initialRouters := routers
    initializedWithoutWriters := writers.isEmpty
    lastUpdatedTime := now
    ttl := ttl }

/-- Modelled from the spec: "Fresh(readonly): `now < created + ttl` and the
relevant side (readers if readonly, else writers) is non-empty". -/
def RoutingTable.isFresh (rt : RoutingTable) (readonly : Bool) (now : ℚ) :
    Bool :=
  decide (now < rt.lastUpdatedTime + rt.ttl) &&
    !(if readonly then rt.readers.isEmpty else rt.writers.isEmpty)

/-- Modelled from the spec: "Should-purge: `now > created + ttl +
purge_delay`" (the caller separately exempts the default database). -/
def RoutingTable.shouldBePurged (rt : RoutingTable)
    (purgeDelay now : ℚ) : Bool :=
  decide (rt.lastUpdatedTime + rt.ttl + purgeDelay < now)

/-- Modelled from the spec: `RoutingTable.update(new)` — "merge the
returned table (replacing the router/reader/writer sets and TTL)";
`database` is replaced by the server-reported name, the freshness clock
restarts, and `initialized_without_writers` is re-recorded from the new
writer set.  The initial routers are left untouched. -/
def RoutingTable.update (old new : RoutingTable) (now : ℚ) :
    RoutingTable :=
  { database := new.database
    routers := new.routers
    readers := new.readers
    writers := new.writers
    initialRouters := old.initialRouters
    initializedWithoutWriters := new.writers.isEmpty
    lastUpdatedTime := now
    ttl := new.ttl }

/-- Modelled from the spec: `RoutingTable.servers()` — the union of the
router, writer and reader sets (membership is what the caller tests). -/
def RoutingTable.serverSet (rt : RoutingTable) : List PyAddress :=
  rt.routers ++ rt.writers ++ rt.readers

/-- The addresses carried by the records of a given role, in emission
order. -/
def roleAddresses (role : Role)
    (servers : List (Role × List PyAddress)) : List PyAddress :=
  (servers.filter (fun p => p.1 = role)).foldr (fun p acc => p.2 ++ acc) []

/-- Modelled from the spec: `RoutingTable.parse_routing_info(database,
servers, ttl)` — build a table whose three sets are the role-grouped
addresses reported by the server. -/
def parseRoutingInfo (database : Option String)
    (servers : List (Role × List PyAddress)) (ttl now : ℚ) :
    RoutingTable :=
  mkRoutingTable database
    (roleAddresses .route servers)
    (roleAddresses .read servers)
    (roleAddresses .write servers)
    ttl now

/-! ## The routing pool state (`neo4j/_async/io/_pool.py`,
`AsyncNeo4jPool`) -/

/-- The state of an `AsyncNeo4jPool` that the routing operations read and
write: the per-database routing tables (`self.routing_tables`, an
association list keyed by database name where `none` is the default
`None` database), the configured default database
(`self.workspace_config.database`), the initial routing address
(`self.address`), and the pooled connections (`self.connections`
flattened: one entry per pooled connection, carrying its resolved
address and its `in_use` flag). -/
structure NPool where
  routingTables : List (Option String × RoutingTable)
  defaultDatabase : Option String
  address : PyAddress
  connections : List (PyAddress × Bool)
deriving DecidableEq

/-- Dictionary lookup on the routing-table association list. -/
def alLookup (l : List (Option String × RoutingTable))
    (k : Option String) : Option RoutingTable :=
  match l with
  | [] => none
  | (k', v) :: rest => if k' = k then some v else alLookup rest k

/-- Dictionary update (or insert) on the routing-table association list. -/
def alSet (l : List (Option String × RoutingTable)) (k : Option String)
    (v : RoutingTable) : List (Option String × RoutingTable) :=
  match l with
  | [] => [(k, v)]
  | (k', v') :: rest =>
      if k' = k then (k, v) :: rest else (k', v') :: alSet rest k v

/-- `AsyncNeo4jPool.__init__`: seeds
`self.routing_tables = {default: RoutingTable(database=default,
routers=[address])}`. -/
def npoolInit (address : PyAddress) (defaultDb : Option String)
    (now : ℚ) : NPool :=
  { routingTables := [(defaultDb, mkRoutingTable defaultDb [address] [] [] 0 now)]
    defaultDatabase := defaultDb
    address := address
    connections := [] }

/-- `AsyncNeo4jPool.get_or_create_routing_table(database)`: missing tables
are created seeded from the default database's initial routers.  (If the
default database has no table at all, Python would raise `KeyError`; the
pool constructor always seeds that entry, so the `[]` fallback is
unreachable from constructed pools.) -/
def getOrCreateRT (st : NPool) (db : Option String) (now : ℚ) :
    NPool × RoutingTable :=
  match alLookup st.routingTables db with
  | some rt => (st, rt)
  | none =>
      let initials :=
        match alLookup st.routingTables st.defaultDatabase with
        | some d => d.initialRouters
        | none => []
      let rt := mkRoutingTable db initials [] [] 0 now
      ({ st with routingTables := alSet st.routingTables db rt }, rt)

/-- `AsyncNeo4jPool.first_initial_routing_address`:
`routing_tables[default].initial_routers[0]`; `none` models the Python
`KeyError`/`IndexError` on a broken pool. -/
def firstInitialRoutingAddress (st : NPool) : Option PyAddress :=
  (alLookup st.routingTables st.defaultDatabase).bind
    (fun t => t.initialRouters.head?)

/-- `AsyncNeo4jPool.deactivate(address)`: discard the address from every
database's router/reader/writer sets, then delegate to the base pool's
`deactivate` (`AsyncIOPool.deactivate`), which closes and removes only
the pooled connections to that address whose `in_use` flag is false —
in-use connections to the address stay in the pool. -/
def routingDeactivate (st : NPool) (a : PyAddress) : NPool :=
  { st with
    routingTables := st.routingTables.map (fun p =>
      (p.1,
        { p.2 with
          routers := p.2.routers.filter (fun x => x ≠ a)
          readers := p.2.readers.filter (fun x => x ≠ a)
          writers := p.2.writers.filter (fun x => x ≠ a) }))
    connections := st.connections.filter (fun c =>
      !(decide (c.1 = a) && !c.2)) }

/-- `AsyncNeo4jPool.update_connection_pool(database)`: every pooled
address whose `unresolved` form is not in the routing table's server set
is deactivated through the base-class `AsyncIOPool.deactivate`, which
removes only the connections with `in_use` false — so a pooled
connection survives iff its address's unresolved form is in the server
set or the connection is in use; routing tables are untouched. -/
def updateConnectionPoolN (st : NPool) (db : Option String) (now : ℚ) :
    NPool :=
  let st1 := (getOrCreateRT st db now).1
  let rt := (getOrCreateRT st db now).2
  { st1 with
    connections := st1.connections.filter (fun c =>
      rt.serverSet.any (fun s => c.1.unresolved = some s) || c.2) }

/-! ## Fetching routing tables (`AsyncNeo4jPool.fetch_routing_table`) -/

/-- The exception kinds `fetch_routing_info` can raise into
`fetch_routing_table`: a server-side `Neo4jError` (carrying its
`is_fatal_during_discovery()` verdict), `ServiceUnavailable`, or
`SessionExpired`. -/
inductive FetchError where
  | neo4jError (fatalDuringDiscovery : Bool)
  | serviceUnavailable
  | sessionExpired
deriving DecidableEq

/-- The outcome of `fetch_routing_info(address, ...)` for one address:
either an exception, or `none` for an empty/falsy response, or the first
routing-info record. -/
abbrev FetchOutcome := Except FetchError (Option RoutingInfoRecord)

/-- `new_routing_info[0].get("db", database)`: the server-reported database
name when the `db` entry is present, otherwise the requested one. -/
def reportedDb (info : RoutingInfoRecord) (database : Option String) :
    Option String :=
  match info.db with
  | some d => some d
  | none => database

/-- `AsyncNeo4jPool.fetch_routing_table` for one address, as a function of
the outcome of its `fetch_routing_info` call: a `Neo4jError` is re-raised
iff `is_fatal_during_discovery()`, `ServiceUnavailable` and
`SessionExpired` are swallowed, a falsy response yields `None`; otherwise
the record is parsed (the requested database name being replaced by the
reported `db` entry when present) and the table is returned iff it has at
least one router and at least one reader — an empty writer set is not an
error. -/
def fetchRoutingTable (database : Option String) (now : ℚ)
    (outcome : FetchOutcome) :
    Except FetchError (Option RoutingTable) :=
  match outcome with
  | .error (.neo4jError fatal) =>
      if fatal then .error (.neo4jError true) else .ok none
  | .error .serviceUnavailable => .ok none
  | .error .sessionExpired => .ok none
  | .ok none => .ok none
  | .ok (some info) =>
      let t := parseRoutingInfo (reportedDb info database) info.servers
        info.ttl now
      if t.routers.length = 0 then .ok none
      else if t.readers.length = 0 then .ok none
      else .ok (some t)

/-! ## Updating routing tables (`AsyncNeo4jPool.update_routing_table` and
`_update_routing_table_from`) -/

/-- The outcome of walking the resolved endpoints of one router. -/
inductive TryRes where
  | success (st : NPool)
  | exhausted
  | aborted
  | fatal
deriving DecidableEq

/-- The success branch of `_update_routing_table_from`: look up or create
the table stored under the *server-reported* database name of the fetched
table, merge the fetched table into it, and store the result under that
name. -/
def applyNewTable (st : NPool) (t : RoutingTable) (now : ℚ) : NPool :=
  let st1 := (getOrCreateRT st t.database now).1
  let old := (getOrCreateRT st t.database now).2
  { st1 with
    routingTables := alSet st1.routingTables t.database
      (RoutingTable.update old t now) }

/-- The inner endpoint loop of `_update_routing_table_from` for one
router's resolved endpoints: before each fetch the deadline is checked
(expiry makes the whole helper return `False` at once — `aborted`); a
fatal discovery error propagates; the first endpoint that yields a table
merges it and succeeds.  The first component is the trace of endpoint
addresses actually contacted, in order. -/
def tryEndpoints (oracle : PyAddress → FetchOutcome)
    (db : Option String) (now : ℚ) (dlExpired : Bool) (st : NPool) :
    List PyAddress → List PyAddress × TryRes
  | [] => ([], .exhausted)
  | a :: rest =>
      if dlExpired then ([], .aborted)
      else
        match fetchRoutingTable db now (oracle a) with
        | .error _ => ([a], .fatal)
        | .ok none =>
            (a :: (tryEndpoints oracle db now dlExpired st rest).1,
              (tryEndpoints oracle db now dlExpired st rest).2)
        | .ok (some t) => ([a], .success (applyNewTable st t now))

/-- The errors `update_routing_table` can raise: a re-raised
fatal-during-discovery `Neo4jError`, the final
`ServiceUnavailable("Unable to retrieve routing information")`, or (model
only) a broken pool on which `first_initial_routing_address` would raise. -/
inductive RoutingError where
  | fatalDiscoveryError
  | serviceUnavailableMsg (msg : String)
  | brokenPool
deriving DecidableEq

/-- `AsyncNeo4jPool._update_routing_table_from(*routers, ...)`: for each
router in turn, resolve it and walk its endpoints; a router whose
endpoints are all exhausted is deactivated before moving on; the first
success returns `True`.  Returns the contact trace alongside the result. -/
def updateFrom (oracle : PyAddress → FetchOutcome)
    (resolver : PyAddress → List PyAddress) (db : Option String)
    (now : ℚ) (dlExpired : Bool) :
    List PyAddress → NPool →
    List PyAddress × Except RoutingError (Bool × NPool)
  | [], st => ([], .ok (false, st))
  | r :: rest, st =>
      let tr := (tryEndpoints oracle db now dlExpired st (resolver r)).1
      match (tryEndpoints oracle db now dlExpired st (resolver r)).2 with
      | .fatal => (tr, .error .fatalDiscoveryError)
      | .aborted => (tr, .ok (false, st))
      | .success st' => (tr, .ok (true, st'))
      | .exhausted =>
          (tr ++ (updateFrom oracle resolver db now dlExpired rest
              (routingDeactivate st r)).1,
            (updateFrom oracle resolver db now dlExpired rest
              (routingDeactivate st r)).2)

/-- The sequence of `_update_routing_table_from` calls made by
`update_routing_table`: blocks are tried in order, stopping at the first
block that succeeds (or raises). -/
def runBlocks (oracle : PyAddress → FetchOutcome)
    (resolver : PyAddress → List PyAddress) (db : Option String)
    (now : ℚ) (dlExpired : Bool) :
    List (List PyAddress) → NPool →
    List PyAddress × Except RoutingError (Bool × NPool)
  | [], st => ([], .ok (false, st))
  | b :: bs, st =>
      let tr := (updateFrom oracle resolver db now dlExpired b st).1
      match (updateFrom oracle resolver db now dlExpired b st).2 with
      | .error e => (tr, .error e)
      | .ok (true, st') => (tr, .ok (true, st'))
      | .ok (false, st') =>
          (tr ++ (runBlocks oracle resolver db now dlExpired bs st').1,
            (runBlocks oracle resolver db now dlExpired bs st').2)

/-- `AsyncNeo4jPool.update_routing_table(database, ...)`: look up or
create the table, snapshot its router set, read
`initialized_without_writers`; if that flag is set try the first initial
routing address `R0` first, then every existing router except `R0`, then —
only if the flag was not set — `R0` last; if no block succeeds, raise
`ServiceUnavailable("Unable to retrieve routing information")`.  The first
component is the trace of endpoint addresses contacted. -/
def updateRoutingTable (oracle : PyAddress → FetchOutcome)
    (resolver : PyAddress → List PyAddress) (db : Option String)
    (now : ℚ) (dlExpired : Bool) (st : NPool) :
    List PyAddress × Except RoutingError NPool :=
  let st1 := (getOrCreateRT st db now).1
  let rt := (getOrCreateRT st db now).2
  let existing := rt.routers.dedup
  let prefer := rt.initializedWithoutWriters
  match firstInitialRoutingAddress st1 with
  | none => ([], .error .brokenPool)
  | some r0 =>
      let blocks :=
        (if prefer then [[r0]] else []) ++
          [existing.filter (fun x => x ≠ r0)] ++
          (if prefer then [] else [[r0]])
      let tr := (runBlocks oracle resolver db now dlExpired blocks st1).1
      match (runBlocks oracle resolver db now dlExpired blocks st1).2 with
      | .error e => (tr, .error e)
      | .ok (true, st') => (tr, .ok st')
      | .ok (false, _) =>
          (tr, .error (.serviceUnavailableMsg
            "Unable to retrieve routing information"))

/-- `AsyncNeo4jPool.ensure_routing_table_is_fresh(access_mode, database,
...)`: if the stored table is already fresh for the mode, return `False`
without updating; otherwise run `update_routing_table`, then
`update_connection_pool`, then purge every non-default routing table whose
purge deadline has passed, and return `True`. -/
def ensureRoutingTableIsFresh (oracle : PyAddress → FetchOutcome)
    (resolver : PyAddress → List PyAddress) (accessMode : String)
    (db : Option String) (now purgeDelay : ℚ) (dlExpired : Bool)
    (st : NPool) : Except RoutingError (Bool × NPool) :=
  let st1 := (getOrCreateRT st db now).1
  let rt := (getOrCreateRT st db now).2
  if rt.isFresh (accessMode = "READ") now then .ok (false, st1)
  else
    match (updateRoutingTable oracle resolver db now dlExpired st1).2 with
    | .error e => .error e
    | .ok st2 =>
        let st3 := updateConnectionPoolN st2 db now
        let st4 :=
          { st3 with
            routingTables := st3.routingTables.filter (fun p =>
              !(p.2.shouldBePurged purgeDelay now &&
                decide (p.1 ≠ st3.defaultDatabase))) }
        .ok (true, st4)

/-! ## Address selection (`AsyncNeo4jPool._select_address` and the
selection step of `AsyncNeo4jPool.acquire`) -/

/-- The selection failures of `_select_address`. -/
inductive SelectError where
  | readServiceUnavailable
  | writeServiceUnavailable
deriving DecidableEq

/-- `AsyncNeo4jPool._select_address(access_mode, database)`: take the
reader set under READ access, else the writer set; group the addresses by
their in-use connection count; if the grouping is empty raise
`ReadServiceUnavailable("No read service currently available")` or
`WriteServiceUnavailable("No write service currently available")`
according to the mode; otherwise `choice(...)` picks uniformly among the
group with the minimum count — the function returns that candidate
group. -/
def selectAddress (accessMode : String)
    (readers writers : List PyAddress) (inUse : PyAddress → ℕ) :
    Except SelectError (List PyAddress) :=
  let addresses := if accessMode = "READ" then readers else writers
  match addresses with
  | [] =>
      if accessMode = "READ" then .error .readServiceUnavailable
      else .error .writeServiceUnavailable
  | a :: rest =>
      let m := (rest.map inUse).foldl min (inUse a)
      .ok ((a :: rest).filter (fun x => inUse x = m))

/-- The error raised by the selection step of `AsyncNeo4jPool.acquire`:
`SessionExpired("Failed to obtain connection towards '%s' server." %
access_mode)` — the constructor carries the access-mode string spliced
into that message, and the selection failure it was raised `from`. -/
inductive AcquireSelectError where
  | sessionExpiredTowards (accessMode : String) (cause : SelectError)
deriving DecidableEq

/-- The selection step of `AsyncNeo4jPool.acquire`: call
`_select_address`; a `ReadServiceUnavailable` or `WriteServiceUnavailable`
is caught and re-raised as `SessionExpired` naming the access mode. -/
def acquireSelectStep (accessMode : String)
    (readers writers : List PyAddress) (inUse : PyAddress → ℕ) :
    Except AcquireSelectError (List PyAddress) :=
  match selectAddress accessMode readers writers inUse with
  | .ok g => .ok g
  | .error e => .error (.sessionExpiredTowards accessMode e)

/-! ## Managed transaction loop (`neo4j/_async/work/session.py`,
`AsyncSession._run_transaction`) -/

/-- The outcome of one attempt of the user's transaction function:
either the committed result value, or a caught `DriverError`/`Neo4jError`
carrying its `is_retryable()` verdict (errors are identified by a
number). -/
inductive TxOutcome where
  | ok (v : ℤ)
  | err (retryable : Bool) (e : ℕ)
deriving DecidableEq

/-- What `_run_transaction` can raise or return. -/
inductive TxError where
  | driver (e : ℕ)
  | serviceUnavailable (msg : String)
deriving DecidableEq

/-- The result of the loop. -/
inductive TxResult where
  | returned (v : ℤ)
  | raised (err : TxError)
deriving DecidableEq

/-- The give-up branch after the loop breaks (lines 436–439): re-raise the
last recorded error, or `ServiceUnavailable("Transaction failed")` when
the error history is empty. -/
def giveUpError (errors : List ℕ) : TxError :=
  match errors.getLast? with
  | some e => .driver e
  | none => .serviceUnavailable "Transaction failed"

/-- `AsyncSession._run_transaction`, over an explicit list of attempt
outcomes and an explicit clock of successive `perf_counter()` samples:
a successful attempt returns its value; a caught error first disconnects
the session (the `ℕ` in the result counts disconnects), then re-raises
immediately if not retryable, else appends to the error history; the
timer starts after the first attempt; when the elapsed time exceeds
`max_transaction_retry_time` the loop gives up via `giveUpError`.
`none` means the supplied attempt list ran out before the loop ended. -/
def runTx (maxRetryTime : ℚ) (clock : ℕ → ℚ) :
    List TxOutcome → Option ℚ → ℕ → List ℕ → ℕ →
    Option (TxResult × ℕ)
  | [], _, _, _, _ => none
  | .ok v :: _, _, _, _, disconnects => some (.returned v, disconnects)
  | .err r e :: rest, t0, clockIdx, errors, disconnects =>
      let disconnects' := disconnects + 1
      if !r then some (.raised (.driver e), disconnects')
      else
        let errors' := errors ++ [e]
        let (t0v, idx) :=
          match t0 with
          | some x => (x, clockIdx)
          | none => (clock clockIdx, clockIdx + 1)
        let t1 := clock idx
        if maxRetryTime < t1 - t0v then
          some (.raised (giveUpError errors'), disconnects')
        else
          runTx maxRetryTime clock rest (some t0v) (idx + 1) errors'
            disconnects'

/-! ## Specification-side descriptions used to state the routing-order
claim (these follow the spec's wording and are compared against the
embedded `update_routing_table`) -/

/-- Whether `fetch_routing_table` succeeds at a given address (returns a
parsed table rather than `None` or an exception). -/
def fetchSucceeds (oracle : PyAddress → FetchOutcome) (db : Option String)
    (now : ℚ) (a : PyAddress) : Bool :=
  match fetchRoutingTable db now (oracle a) with
  | .ok (some _) => true
  | _ => false

/-- The spec-side attempt semantics over a candidate list: every address
up to and including the first successful one is contacted; if none
succeeds, all are contacted.  Returns (success?, contacted addresses in
order). -/
def tryTrace (succ : PyAddress → Bool) : List PyAddress →
    Bool × List PyAddress
  | [] => (false, [])
  | a :: rest =>
      if succ a then (true, [a])
      else
        let (b, tr) := tryTrace succ rest
        (b, a :: tr)

/-- The resolved endpoints of a list of routers, concatenated in order. -/
def flatResolve (resolver : PyAddress → List PyAddress)
    (routers : List PyAddress) : List PyAddress :=
  routers.foldr (fun r acc => resolver r ++ acc) []

/-- The spec-side candidate order of `update_routing_table`: the first
initial routing address `R0` first when `initialized_without_writers` is
flagged; then every router of the existing router set minus `R0`, each
resolved to its endpoints in emission order; then `R0` last only when the
initial-address path was not taken first. -/
def specRouterOrder (prefer : Bool) (r0 : PyAddress)
    (existing : List PyAddress) (resolver : PyAddress → List PyAddress) :
    List PyAddress :=
  flatResolve resolver
    ((if prefer then [r0] else []) ++
      existing.filter (fun x => x ≠ r0) ++
      (if prefer then [] else [r0]))

/-- The resolved endpoints of a list of router blocks, concatenated. -/
def flatBlocksResolve (resolver : PyAddress → List PyAddress)
    (bs : List (List PyAddress)) : List PyAddress :=
  bs.foldr (fun b acc => flatResolve resolver b ++ acc) []

/-! ## Concrete instances used by counterexamples and witnesses -/

/-- A concrete router address. -/
def cAddr : PyAddress := .plain [PyVal.str "router1", PyVal.int 7687]

/-- A second concrete address. -/
def cAddr2 : PyAddress := .plain [PyVal.str "router2", PyVal.int 7687]

/-- A concrete routing oracle: every address reports one router and one
reader (both `cAddr`), no writers, TTL 100, no `db` entry. -/
def cOracle : PyAddress → FetchOutcome := fun _ =>
  .ok (some { servers := [(Role.route, [cAddr]), (Role.read, [cAddr])],
              ttl := 100, db := none })

/-- A concrete resolver: every address resolves to itself. -/
def cResolver : PyAddress → List PyAddress := fun a => [a]

/-- The routing table the concrete ensure run below ends with. -/
def cFinalTable : RoutingTable :=
  { database := none
    routers := [cAddr]
    readers := [cAddr]
    writers := []
    initialRouters := [cAddr]
    initializedWithoutWriters := true
    lastUpdatedTime := 10
    ttl := 100 }

/-- The pool state the concrete ensure run below ends with. -/
def cFinalState : NPool :=
  { routingTables := [(none, cFinalTable)]
    defaultDatabase := none
    address := cAddr
    connections := [] }

/-- A routing table that is fresh for WRITE access at time 10. -/
def cFreshTable : RoutingTable :=
  { database := none
    routers := [cAddr]
    readers := [cAddr]
    writers := [cAddr]
    initialRouters := [cAddr]
    initializedWithoutWriters := false
    lastUpdatedTime := 0
    ttl := 100 }

/-- A pool whose default-database table is `cFreshTable`. -/
def cFreshPool : NPool :=
  { routingTables := [(none, cFreshTable)]
    defaultDatabase := none
    address := cAddr
    connections := [] }

/-- A routing oracle that always fails with `ServiceUnavailable`. -/
def cFailOracle : PyAddress → FetchOutcome := fun _ =>
  .error .serviceUnavailable

/-- A resolved address whose unresolved form is not in `cFinalTable`'s
server set. -/
def cDeadAddr : PyAddress :=
  .resolved [PyVal.str "10.0.0.9", PyVal.int 7687] "deadhost"

/-- `cFinalState` with two pooled connections to `cDeadAddr`: one in use
and one idle. -/
def cConnPool : NPool :=
  { cFinalState with
    connections := [(cDeadAddr, true), (cDeadAddr, false)] }

deriving instance DecidableEq for Except

/-- A pool state in which some database name maps to a routing table whose
freshness clock was restarted at `now` and which has at least one router,
at least one reader, and a non-negative TTL — what a successful
`update_routing_table` leaves behind. -/
def freshlyUpdated (st : NPool) (now : ℚ) : Prop :=
  ∃ db' rt', alLookup st.routingTables db' = some rt' ∧
    rt'.lastUpdatedTime = now ∧ rt'.routers ≠ [] ∧ rt'.readers ≠ [] ∧
    0 ≤ rt'.ttl

/-! # Theorems -/

/-! ## Helper lemmas -/

theorem alLookup_alSet_self (l : List (Option String × RoutingTable))
    (k : Option String) (v : RoutingTable) :
    alLookup (alSet l k v) k = some v := by
  induction l with
  | nil => simp [alSet, alLookup]
  | cons hd tl ih =>
      by_cases h : hd.1 = k
      · simp [alSet, alLookup, h]
      · simp only [alSet]
        rw [if_neg (by exact h)]
        simp only [alLookup]
        rw [if_neg (by exact h)]
        exact ih

theorem alLookup_alSet_ne (l : List (Option String × RoutingTable))
    (k k' : Option String) (v : RoutingTable) (h : k' ≠ k) :
    alLookup (alSet l k v) k' = alLookup l k' := by
  induction l with
  | nil =>
      simp only [alSet, alLookup]
      rw [if_neg (fun hh : k = k' => h hh.symm)]
  | cons hd tl ih =>
      by_cases hk : hd.1 = k
      · simp only [alSet]
        rw [if_pos hk]
        simp only [alLookup]
        rw [if_neg (fun hh : k = k' => h hh.symm),
          if_neg (fun hh : hd.1 = k' => h (by rw [← hh, hk]))]
      · simp only [alSet]
        rw [if_neg hk]
        simp only [alLookup]
        by_cases hh : hd.1 = k'
        · rw [if_pos hh, if_pos hh]
        · rw [if_neg hh, if_neg hh]
          exact ih

theorem alLookup_filter (l : List (Option String × RoutingTable))
    (k : Option String) (v : RoutingTable)
    (keep : Option String × RoutingTable → Bool)
    (h : alLookup l k = some v) (hk : keep (k, v) = true) :
    alLookup (l.filter keep) k = some v := by
  induction l with
  | nil => simp [alLookup] at h
  | cons hd tl ih =>
      simp only [alLookup] at h
      by_cases hh : hd.1 = k
      · rw [if_pos hh] at h
        have : hd = (k, v) := by
          cases hd
          simp_all
        subst this
        simp [List.filter, hk, alLookup]
      · rw [if_neg hh] at h
        simp only [List.filter]
        cases hkeep : keep hd
        · exact ih h
        · simp only [alLookup]
          rw [if_neg hh]
          exact ih h

theorem alLookup_mapVals (l : List (Option String × RoutingTable))
    (k : Option String) (g : RoutingTable → RoutingTable) :
    alLookup (l.map (fun p => (p.1, g p.2))) k =
      (alLookup l k).map g := by
  induction l with
  | nil => simp [alLookup]
  | cons hd tl ih =>
      simp only [List.map, alLookup]
      by_cases hh : hd.1 = k
      · rw [if_pos hh, if_pos hh]
        rfl
      · rw [if_neg hh, if_neg hh]
        exact ih

theorem getOrCreateRT_lookup (st : NPool) (db : Option String) (now : ℚ) :
    alLookup (getOrCreateRT st db now).1.routingTables db =
      some (getOrCreateRT st db now).2 := by
  unfold getOrCreateRT
  cases h : alLookup st.routingTables db
  · simp only [h]
    exact alLookup_alSet_self _ _ _
  · simp only [h]

theorem getOrCreateRT_connections (st : NPool) (db : Option String)
    (now : ℚ) :
    (getOrCreateRT st db now).1.connections = st.connections := by
  unfold getOrCreateRT
  cases h : alLookup st.routingTables db <;> simp [h]

theorem getOrCreateRT_of_lookup_some (st : NPool) (db : Option String)
    (now : ℚ) (rt : RoutingTable)
    (h : alLookup st.routingTables db = some rt) :
    getOrCreateRT st db now = (st, rt) := by
  unfold getOrCreateRT
  rw [h]

theorem getOrCreateRT_preserves (st : NPool) (db k : Option String)
    (now : ℚ) (v : RoutingTable)
    (h : alLookup st.routingTables k = some v) :
    alLookup (getOrCreateRT st db now).1.routingTables k = some v := by
  unfold getOrCreateRT
  cases hdb : alLookup st.routingTables db
  · simp only [hdb]
    by_cases hk : k = db
    · subst hk
      rw [h] at hdb
      exact absurd hdb (by simp)
    · rw [alLookup_alSet_ne _ _ _ _ hk]
      exact h
  · simp only [hdb]
    exact h

theorem updateConnectionPoolN_lookup (st : NPool) (db k : Option String)
    (now : ℚ) (v : RoutingTable)
    (h : alLookup st.routingTables k = some v) :
    alLookup (updateConnectionPoolN st db now).routingTables k =
      some v := by
  unfold updateConnectionPoolN
  exact getOrCreateRT_preserves st db k now v h

theorem fetch_error_iff (db : Option String) (now : ℚ)
    (outcome : FetchOutcome) (e : FetchError) :
    fetchRoutingTable db now outcome = .error e ↔
      outcome = .error (.neo4jError true) ∧ e = .neo4jError true := by
  cases outcome with
  | error err =>
      cases err with
      | neo4jError f =>
          cases f
          · simp [fetchRoutingTable]
          · simp [fetchRoutingTable]
            tauto
      | serviceUnavailable => simp [fetchRoutingTable]
      | sessionExpired => simp [fetchRoutingTable]
  | ok o =>
      cases o with
      | none => simp [fetchRoutingTable]
      | some info =>
          simp only [fetchRoutingTable]
          split_ifs <;> simp

theorem fetch_ok_some_iff (db : Option String) (now : ℚ)
    (outcome : FetchOutcome) (t : RoutingTable) :
    fetchRoutingTable db now outcome = .ok (some t) ↔
      ∃ info, outcome = .ok (some info) ∧
        t = parseRoutingInfo (reportedDb info db) info.servers
          info.ttl now ∧
        t.routers ≠ [] ∧ t.readers ≠ [] := by
  cases outcome with
  | error err =>
      cases err with
      | neo4jError f => cases f <;> simp [fetchRoutingTable]
      | serviceUnavailable => simp [fetchRoutingTable]
      | sessionExpired => simp [fetchRoutingTable]
  | ok o =>
      cases o with
      | none => simp [fetchRoutingTable]
      | some info =>
          simp only [fetchRoutingTable]
          split_ifs with h1 h2
          · constructor
            · intro h
              exact absurd h (by simp)
            · rintro ⟨info', hinfo, ht, hr, hd⟩
              have hi : info = info' := by
                simpa using hinfo
              subst hi
              subst ht
              exact absurd (List.length_eq_zero.mp h1) hr
          · constructor
            · intro h
              exact absurd h (by simp)
            · rintro ⟨info', hinfo, ht, hr, hd⟩
              have hi : info = info' := by
                simpa using hinfo
              subst hi
              subst ht
              exact absurd (List.length_eq_zero.mp h2) hd
          · constructor
            · intro h
              have hpt : parseRoutingInfo (reportedDb info db)
                  info.servers info.ttl now = t := by
                simpa using h
              refine ⟨info, rfl, hpt.symm, ?_, ?_⟩
              · rw [← hpt]
                intro hh
                exact h1 (by simp [hh])
              · rw [← hpt]
                intro hh
                exact h2 (by simp [hh])
            · rintro ⟨info', hinfo, ht, hr, hd⟩
              have hi : info = info' := by
                simpa using hinfo
              subst hi
              rw [ht]

theorem applyNewTable_fresh (st : NPool) (t : RoutingTable) (now : ℚ)
    (ht : t.routers ≠ []) (hr : t.readers ≠ []) (httl : 0 ≤ t.ttl) :
    freshlyUpdated (applyNewTable st t now) now := by
  refine ⟨t.database,
    RoutingTable.update (getOrCreateRT st t.database now).2 t now, ?_,
    rfl, ht, hr, httl⟩
  simp only [applyNewTable]
  exact alLookup_alSet_self _ _ _

theorem tryEndpoints_success_fresh (oracle : PyAddress → FetchOutcome)
    (db : Option String) (now : ℚ) (dl : Bool)
    (httl : ∀ a info, oracle a = .ok (some info) → 0 ≤ info.ttl) :
    ∀ (eps : List PyAddress) (st st' : NPool),
      (tryEndpoints oracle db now dl st eps).2 = .success st' →
      freshlyUpdated st' now := by
  intro eps
  induction eps with
  | nil =>
      intro st st' h
      simp [tryEndpoints] at h
  | cons a rest ih =>
      intro st st' h
      simp only [tryEndpoints] at h
      split_ifs at h with hdl
      cases hfetch : fetchRoutingTable db now (oracle a) with
      | error e =>
          simp only [hfetch] at h
          simp at h
      | ok o =>
          cases o with
          | none =>
              simp only [hfetch] at h
              exact ih st st' h
          | some t =>
              simp only [hfetch] at h
              obtain ⟨info, hinfo, hteq, hrt, hrd⟩ :=
                (fetch_ok_some_iff db now (oracle a) t).mp hfetch
              have httl' : 0 ≤ t.ttl := by
                rw [hteq]
                exact httl a info hinfo
              injection h with h'
              rw [← h']
              exact applyNewTable_fresh st t now hrt hrd httl'

theorem updateFrom_success_fresh (oracle : PyAddress → FetchOutcome)
    (resolver : PyAddress → List PyAddress) (db : Option String)
    (now : ℚ) (dl : Bool)
    (httl : ∀ a info, oracle a = .ok (some info) → 0 ≤ info.ttl) :
    ∀ (routers : List PyAddress) (st st' : NPool),
      (updateFrom oracle resolver db now dl routers st).2 =
        .ok (true, st') →
      freshlyUpdated st' now := by
  intro routers
  induction routers with
  | nil =>
      intro st st' h
      simp [updateFrom] at h
  | cons r rest ih =>
      intro st st' h
      simp only [updateFrom] at h
      cases hres : (tryEndpoints oracle db now dl st (resolver r)).2 with
      | fatal =>
          simp only [hres] at h
          simp at h
      | aborted =>
          simp only [hres] at h
          simp at h
      | success st'' =>
          simp only [hres] at h
          simp only [Except.ok.injEq, Prod.mk.injEq, true_and] at h
          rw [← h]
          exact tryEndpoints_success_fresh oracle db now dl httl
            (resolver r) st st'' hres
      | exhausted =>
          simp only [hres] at h
          exact ih (routingDeactivate st r) st' h

theorem runBlocks_success_fresh (oracle : PyAddress → FetchOutcome)
    (resolver : PyAddress → List PyAddress) (db : Option String)
    (now : ℚ) (dl : Bool)
    (httl : ∀ a info, oracle a = .ok (some info) → 0 ≤ info.ttl) :
    ∀ (bs : List (List PyAddress)) (st st' : NPool),
      (runBlocks oracle resolver db now dl bs st).2 = .ok (true, st') →
      freshlyUpdated st' now := by
  intro bs
  induction bs with
  | nil =>
      intro st st' h
      simp [runBlocks] at h
  | cons b rest ih =>
      intro st st' h
      simp only [runBlocks] at h
      cases hres : (updateFrom oracle resolver db now dl b st).2 with
      | error e =>
          simp only [hres] at h
          simp at h
      | ok p =>
          rcases p with ⟨flag, st''⟩
          cases flag
          · simp only [hres] at h
            exact ih st'' st' h
          · simp only [hres] at h
            simp only [Except.ok.injEq, Prod.mk.injEq, true_and] at h
            rw [← h]
            exact updateFrom_success_fresh oracle resolver db now dl httl
              b st st'' hres

theorem updateRoutingTable_ok_fresh (oracle : PyAddress → FetchOutcome)
    (resolver : PyAddress → List PyAddress) (db : Option String)
    (now : ℚ) (dl : Bool) (st st' : NPool)
    (httl : ∀ a info, oracle a = .ok (some info) → 0 ≤ info.ttl)
    (h : (updateRoutingTable oracle resolver db now dl st).2 = .ok st') :
    freshlyUpdated st' now := by
  simp only [updateRoutingTable] at h
  cases hfi :
      firstInitialRoutingAddress (getOrCreateRT st db now).1 with
  | none =>
      simp only [hfi] at h
      simp at h
  | some r0 =>
      simp only [hfi] at h
      split at h
      · next st'' heq =>
          exfalso
          exact absurd h (by simp)
      · next st'' heq =>
          simp only [Except.ok.injEq] at h
          rw [← h]
          exact runBlocks_success_fresh oracle resolver db now dl httl _ _
            st'' heq
      · next heq =>
          exfalso
          exact absurd h (by simp)

theorem updateConnectionPoolN_fresh (st : NPool) (db : Option String)
    (now : ℚ) (h : freshlyUpdated st now) :
    freshlyUpdated (updateConnectionPoolN st db now) now := by
  obtain ⟨db', rt', hl, h1, h2, h3, h4⟩ := h
  exact ⟨db', rt', updateConnectionPoolN_lookup st db db' now rt' hl,
    h1, h2, h3, h4⟩

theorem purge_keeps_fresh (st : NPool) (now purgeDelay : ℚ)
    (hpd : 0 ≤ purgeDelay) (h : freshlyUpdated st now) :
    freshlyUpdated
      { st with
        routingTables := st.routingTables.filter (fun p =>
          !(p.2.shouldBePurged purgeDelay now &&
            decide (p.1 ≠ st.defaultDatabase))) } now := by
  obtain ⟨db', rt', hl, h1, h2, h3, h4⟩ := h
  refine ⟨db', rt', ?_, h1, h2, h3, h4⟩
  apply alLookup_filter _ _ _ _ hl
  have hnp : ¬(rt'.lastUpdatedTime + rt'.ttl + purgeDelay < now) := by
    rw [h1]
    linarith
  simp [RoutingTable.shouldBePurged, hnp]

theorem tryTrace_append (succ : PyAddress → Bool)
    (l1 l2 : List PyAddress) :
    tryTrace succ (l1 ++ l2) =
      if (tryTrace succ l1).1 = true then tryTrace succ l1
      else ((tryTrace succ l2).1,
        (tryTrace succ l1).2 ++ (tryTrace succ l2).2) := by
  induction l1 with
  | nil => simp [tryTrace]
  | cons a t ih =>
      by_cases ha : succ a = true
      · simp [tryTrace, ha]
      · cases hc : (tryTrace succ t).1 with
        | true => simp [tryTrace, List.cons_append, ha, ih, hc]
        | false => simp [tryTrace, List.cons_append, ha, ih, hc]

theorem flatResolve_append (resolver : PyAddress → List PyAddress)
    (l1 l2 : List PyAddress) :
    flatResolve resolver (l1 ++ l2) =
      flatResolve resolver l1 ++ flatResolve resolver l2 := by
  induction l1 with
  | nil => simp [flatResolve]
  | cons a t ih => simp [flatResolve, List.foldr] at ih ⊢; simp [ih]

theorem tryEndpoints_trace (oracle : PyAddress → FetchOutcome)
    (db : Option String) (now : ℚ)
    (hnf : ∀ a, oracle a ≠ .error (.neo4jError true)) :
    ∀ (eps : List PyAddress) (st : NPool),
      (tryEndpoints oracle db now false st eps).1 =
        (tryTrace (fetchSucceeds oracle db now) eps).2 ∧
      ((tryTrace (fetchSucceeds oracle db now) eps).1 = true →
        ∃ st', (tryEndpoints oracle db now false st eps).2 =
          .success st') ∧
      ((tryTrace (fetchSucceeds oracle db now) eps).1 = false →
        (tryEndpoints oracle db now false st eps).2 = .exhausted) := by
  intro eps
  induction eps with
  | nil =>
      intro st
      exact ⟨rfl, by simp [tryTrace], fun _ => rfl⟩
  | cons a rest ih =>
      intro st
      cases hfetch : fetchRoutingTable db now (oracle a) with
      | error e =>
          exfalso
          obtain ⟨ho, -⟩ := (fetch_error_iff db now (oracle a) e).mp hfetch
          exact hnf a ho
      | ok o =>
          cases o with
          | none =>
              have hsucc : fetchSucceeds oracle db now a = false := by
                simp [fetchSucceeds, hfetch]
              refine ⟨?_, ?_, ?_⟩
              · simp only [tryEndpoints, Bool.false_eq_true, if_false,
                  hfetch, tryTrace, hsucc]
                rw [(ih st).1]
              · intro hflag
                simp only [tryTrace, hsucc, Bool.false_eq_true,
                  if_false] at hflag
                obtain ⟨st', hst'⟩ := (ih st).2.1 hflag
                refine ⟨st', ?_⟩
                simp only [tryEndpoints, Bool.false_eq_true, if_false,
                  hfetch]
                exact hst'
              · intro hflag
                simp only [tryTrace, hsucc, Bool.false_eq_true,
                  if_false] at hflag
                simp only [tryEndpoints, Bool.false_eq_true, if_false,
                  hfetch]
                exact (ih st).2.2 hflag
          | some t =>
              have hsucc : fetchSucceeds oracle db now a = true := by
                simp [fetchSucceeds, hfetch]
              refine ⟨?_, ?_, ?_⟩
              · simp [tryEndpoints, hfetch, tryTrace, hsucc]
              · intro _
                exact ⟨applyNewTable st t now,
                  by simp [tryEndpoints, hfetch]⟩
              · intro hflag
                simp [tryTrace, hsucc] at hflag

theorem updateFrom_trace (oracle : PyAddress → FetchOutcome)
    (resolver : PyAddress → List PyAddress) (db : Option String)
    (now : ℚ) (hnf : ∀ a, oracle a ≠ .error (.neo4jError true)) :
    ∀ (routers : List PyAddress) (st : NPool),
      (updateFrom oracle resolver db now false routers st).1 =
        (tryTrace (fetchSucceeds oracle db now)
          (flatResolve resolver routers)).2 ∧
      ((tryTrace (fetchSucceeds oracle db now)
          (flatResolve resolver routers)).1 = true →
        ∃ st', (updateFrom oracle resolver db now false routers st).2 =
          .ok (true, st')) ∧
      ((tryTrace (fetchSucceeds oracle db now)
          (flatResolve resolver routers)).1 = false →
        ∃ st', (updateFrom oracle resolver db now false routers st).2 =
          .ok (false, st')) := by
  intro routers
  induction routers with
  | nil =>
      intro st
      refine ⟨rfl, ?_, fun _ => ⟨st, rfl⟩⟩
      intro hflag
      simp [tryTrace, flatResolve] at hflag
  | cons r rest ih =>
      intro st
      have hflat : flatResolve resolver (r :: rest) =
          resolver r ++ flatResolve resolver rest := rfl
      have happ := tryTrace_append (fetchSucceeds oracle db now)
        (resolver r) (flatResolve resolver rest)
      cases hflag : (tryTrace (fetchSucceeds oracle db now)
          (resolver r)).1 with
      | true =>
          obtain ⟨st', hst'⟩ :=
            (tryEndpoints_trace oracle db now hnf (resolver r) st).2.1
              hflag
          have htr :=
            (tryEndpoints_trace oracle db now hnf (resolver r) st).1
          refine ⟨?_, ?_, ?_⟩
          · simp only [updateFrom, hst', hflat, happ, hflag, if_pos]
            exact htr
          · intro _
            exact ⟨st', by simp only [updateFrom, hst']⟩
          · intro hcon
            rw [hflat, happ] at hcon
            simp [hflag] at hcon
      | false =>
          have hex :=
            (tryEndpoints_trace oracle db now hnf (resolver r) st).2.2
              hflag
          have htr :=
            (tryEndpoints_trace oracle db now hnf (resolver r) st).1
          have ihs := ih (routingDeactivate st r)
          refine ⟨?_, ?_, ?_⟩
          · simp only [updateFrom, hex, hflat, happ, hflag,
              Bool.false_eq_true, if_false]
            rw [htr, ihs.1]
          · intro hflag2
            rw [hflat, happ] at hflag2
            simp only [hflag, Bool.false_eq_true, if_false] at hflag2
            obtain ⟨st', hst'⟩ := ihs.2.1 hflag2
            refine ⟨st', ?_⟩
            simp only [updateFrom, hex]
            exact hst'
          · intro hflag2
            rw [hflat, happ] at hflag2
            simp only [hflag, Bool.false_eq_true, if_false] at hflag2
            obtain ⟨st', hst'⟩ := ihs.2.2 hflag2
            refine ⟨st', ?_⟩
            simp only [updateFrom, hex]
            exact hst'

theorem runBlocks_trace (oracle : PyAddress → FetchOutcome)
    (resolver : PyAddress → List PyAddress) (db : Option String)
    (now : ℚ) (hnf : ∀ a, oracle a ≠ .error (.neo4jError true)) :
    ∀ (bs : List (List PyAddress)) (st : NPool),
      (runBlocks oracle resolver db now false bs st).1 =
        (tryTrace (fetchSucceeds oracle db now)
          (flatBlocksResolve resolver bs)).2 ∧
      ((tryTrace (fetchSucceeds oracle db now)
          (flatBlocksResolve resolver bs)).1 = true →
        ∃ st', (runBlocks oracle resolver db now false bs st).2 =
          .ok (true, st')) ∧
      ((tryTrace (fetchSucceeds oracle db now)
          (flatBlocksResolve resolver bs)).1 = false →
        ∃ st', (runBlocks oracle resolver db now false bs st).2 =
          .ok (false, st')) := by
  intro bs
  induction bs with
  | nil =>
      intro st
      refine ⟨rfl, ?_, fun _ => ⟨st, rfl⟩⟩
      intro hflag
      simp [tryTrace, flatBlocksResolve] at hflag
  | cons b rest ih =>
      intro st
      have hflat : flatBlocksResolve resolver (b :: rest) =
          flatResolve resolver b ++ flatBlocksResolve resolver rest := rfl
      have happ := tryTrace_append (fetchSucceeds oracle db now)
        (flatResolve resolver b) (flatBlocksResolve resolver rest)
      cases hflag : (tryTrace (fetchSucceeds oracle db now)
          (flatResolve resolver b)).1 with
      | true =>
          obtain ⟨st', hst'⟩ :=
            (updateFrom_trace oracle resolver db now hnf b st).2.1 hflag
          have htr := (updateFrom_trace oracle resolver db now hnf b st).1
          refine ⟨?_, ?_, ?_⟩
          · simp only [runBlocks, hst', hflat, happ, hflag, if_pos]
            exact htr
          · intro _
            exact ⟨st', by simp only [runBlocks, hst']⟩
          · intro hcon
            rw [hflat, happ] at hcon
            simp [hflag] at hcon
      | false =>
          obtain ⟨st'', hst''⟩ :=
            (updateFrom_trace oracle resolver db now hnf b st).2.2 hflag
          have htr := (updateFrom_trace oracle resolver db now hnf b st).1
          have ihs := ih st''
          refine ⟨?_, ?_, ?_⟩
          · simp only [runBlocks, hst'', hflat, happ, hflag,
              Bool.false_eq_true, if_false]
            rw [htr, ihs.1]
          · intro hflag2
            rw [hflat, happ] at hflag2
            simp only [hflag, Bool.false_eq_true, if_false] at hflag2
            obtain ⟨st', hst'⟩ := ihs.2.1 hflag2
            refine ⟨st', ?_⟩
            simp only [runBlocks, hst'']
            exact hst'
          · intro hflag2
            rw [hflat, happ] at hflag2
            simp only [hflag, Bool.false_eq_true, if_false] at hflag2
            obtain ⟨st', hst'⟩ := ihs.2.2 hflag2
            refine ⟨st', ?_⟩
            simp only [runBlocks, hst'']
            exact hst'

theorem flatResolve_foldr_init (resolver : PyAddress → List PyAddress)
    (l init : List PyAddress) :
    List.foldr (fun r acc => resolver r ++ acc) init l =
      flatResolve resolver l ++ init := by
  induction l with
  | nil => simp [flatResolve]
  | cons a t ih => simp [flatResolve, List.foldr, ih, List.append_assoc]

theorem specRouterOrder_eq_flatBlocks
    (resolver : PyAddress → List PyAddress) (prefer : Bool)
    (r0 : PyAddress) (existing : List PyAddress) :
    flatBlocksResolve resolver
      ((if prefer then [[r0]] else []) ++
        [existing.filter (fun x => x ≠ r0)] ++
        (if prefer then [] else [[r0]])) =
      specRouterOrder prefer r0 existing resolver := by
  cases prefer
  · rw [show ((if (false : Bool) = true then [[r0]] else []) ++
        [existing.filter (fun x => x ≠ r0)] ++
        (if (false : Bool) = true then [] else [[r0]])) =
        [existing.filter (fun x => x ≠ r0), [r0]] from rfl]
    rw [show specRouterOrder false r0 existing resolver =
        flatResolve resolver
          (existing.filter (fun x => x ≠ r0) ++ [r0]) from rfl]
    rw [flatResolve_append]
    simp [flatBlocksResolve, flatResolve]
  · rw [show ((if (true : Bool) = true then [[r0]] else []) ++
        [existing.filter (fun x => x ≠ r0)] ++
        (if (true : Bool) = true then [] else [[r0]])) =
        [[r0], existing.filter (fun x => x ≠ r0)] from rfl]
    rw [show specRouterOrder true r0 existing resolver =
        flatResolve resolver
          (([r0] ++ existing.filter (fun x => x ≠ r0)) ++ []) from rfl]
    rw [flatResolve_append, flatResolve_append]
    simp [flatBlocksResolve, flatResolve]

/-- C7: for every initial_retry_delay > 0, multiplier, jitter factor j
(non-negative, as the driver's backoff configuration is), and every
sequence of `random()` values in [0, 1), the k-th delay yielded by
`retry_delay_generator` lies in [d·(1−j), d·(1+j)] where
d = initial_retry_delay · multiplier^k: the delay evolves geometrically by
the multiplier and each yielded value is jittered within ±j of the current
delay. -/
theorem c7_retry_delay_bounds (initialDelay multiplier jitterFactor : ℚ)
    (rand : ℕ → ℚ) (k : ℕ) (h0 : 0 < initialDelay) (hm : 0 ≤ multiplier)
    (hj : 0 ≤ jitterFactor) (hr0 : 0 ≤ rand k) (hr1 : rand k < 1) :
    initialDelay * multiplier ^ k * (1 - jitterFactor) ≤
      retryDelayGen initialDelay multiplier jitterFactor rand k ∧
    retryDelayGen initialDelay multiplier jitterFactor rand k ≤
      initialDelay * multiplier ^ k * (1 + jitterFactor) := by
  have hd : (0 : ℚ) ≤ initialDelay * multiplier ^ k := by positivity
  have hjd : (0 : ℚ) ≤ jitterFactor * (initialDelay * multiplier ^ k) :=
    mul_nonneg hj hd
  have he : retryDelayGen initialDelay multiplier jitterFactor rand k =
      initialDelay * multiplier ^ k -
        jitterFactor * (initialDelay * multiplier ^ k) +
        2 * (jitterFactor * (initialDelay * multiplier ^ k)) * rand k :=
    rfl
  rw [he]
  constructor
  · nlinarith [mul_nonneg hjd hr0]
  · nlinarith [mul_nonneg hjd (by linarith : (0 : ℚ) ≤ 1 - rand k)]

/-- C7 witness: a concrete instantiation (initial delay 1, multiplier 2,
jitter factor 1/2, random value 1/2, k = 1). -/
theorem c7_retry_delay_bounds_witness :
    (1 : ℚ) * 2 ^ 1 * (1 - 1/2) ≤
      retryDelayGen 1 2 (1/2) (fun _ => 1/2) 1 ∧
    retryDelayGen 1 2 (1/2) (fun _ => 1/2) 1 ≤
      (1 : ℚ) * 2 ^ 1 * (1 + 1/2) :=
  c7_retry_delay_bounds 1 2 (1/2) (fun _ => 1/2) 1 (by norm_num)
    (by norm_num) (by norm_num) (by norm_num) (by norm_num)

/-- C9: after `release`, every connection has `in_use = false` (so it is
closed or not in use), the broadcast on the pool condition has occurred,
a reset is attempted exactly for connections that are neither defunct,
closed, nor already reset, and a protocol error during that reset is
swallowed (`releaseOne` returns normally in both cases). -/
theorem c9_release_postcondition (cs : List (PoolConn × Bool))
    (c : PoolConn) (resetError : Bool) :
    (releasePool cs).2 = true ∧
    ((releaseOne c resetError).1.closed = true ∨
      (releaseOne c resetError).1.inUse = false) ∧
    (releaseOne c resetError).2 =
      (!c.defunct && !c.closed && !c.isReset) := by
  refine ⟨rfl, Or.inr rfl, ?_⟩
  simp only [releaseOne]
  cases c.defunct <;> cases c.closed <;> cases c.isReset <;> rfl

/-- C1 (code bug): starting from an empty pool with
`max_connection_pool_size = 1`, one granted creation followed by an
at-capacity `_acquire_new_later` reaches the state with one pooled
connection and one reservation — `len(connections[a]) + reservations[a] =
2 > 1` violates the claimed invariant, and the at-capacity call returned
no creator (`false`) while still durably incrementing the reservation
count. -/
theorem c1_reservation_leak_eval :
    Relation.ReflTransGen (PoolStep 1) ⟨0, 0, 0⟩ ⟨1, 1, 0⟩ ∧
    ¬ poolSizeInvariant 1 ⟨1, 1, 0⟩ ∧
    (acquireNewLater 1 ⟨1, 0, 0⟩).1 = false ∧
    (acquireNewLater 1 ⟨1, 0, 0⟩).2 = ⟨1, 1, 0⟩ := by
  refine ⟨?_, by unfold poolSizeInvariant; decide, by decide, by decide⟩
  have s1 : PoolStep 1 ⟨0, 0, 0⟩ ⟨0, 1, 1⟩ := by
    have h : PoolStep 1 ⟨0, 0, 0⟩ (acquireNewLater 1 ⟨0, 0, 0⟩).2 :=
      PoolStep.reserve ⟨0, 0, 0⟩
    have e : (acquireNewLater 1 ⟨0, 0, 0⟩).2 = (⟨0, 1, 1⟩ : AddrState) := by
      decide
    rwa [e] at h
  have s2 : PoolStep 1 ⟨0, 1, 1⟩ ⟨1, 0, 0⟩ :=
    PoolStep.createSuccess ⟨0, 1, 1⟩ (by decide) (by decide)
  have s3 : PoolStep 1 ⟨1, 0, 0⟩ ⟨1, 1, 0⟩ := by
    have h : PoolStep 1 ⟨1, 0, 0⟩ (acquireNewLater 1 ⟨1, 0, 0⟩).2 :=
      PoolStep.reserve ⟨1, 0, 0⟩
    have e : (acquireNewLater 1 ⟨1, 0, 0⟩).2 = (⟨1, 1, 0⟩ : AddrState) := by
      decide
    rwa [e] at h
  exact .head s1 (.head s2 (.single s3))

/-- C5 counterexample: with a valid access mode, a valid timeout and
`acquisition_timeout = -1`, the synchronous validation prologue of the
routing pool's `acquire` raises nothing — the claim says every
non-positive acquisition timeout is rejected, but the truthiness check
`if not acquisition_timeout` lets negatives through, and the negative
value reaches no deadline constructor before acquisition work starts. -/
theorem c5_counterexample :
    acquirePrologue (some "READ") (some 1) (some (-1)) =
      Except.ok "READ" ∧ ¬((0 : ℚ) < -1) := by
  exact ⟨rfl, by decide⟩

/-- C5 (amended): the synchronous prologue of the routing pool's `acquire`
raises (and performs no acquisition) exactly when the access mode is not
READ or WRITE, or `timeout` is None, zero, or negative (None and zero are
caught by the truthiness check, negatives by the deadline constructor), or
`acquisition_timeout` is None or zero; a negative `acquisition_timeout` is
NOT rejected here. -/
theorem c5_acquire_validation_amended (accessMode : Option String)
    (timeout acquisitionTimeout : Option ℚ) :
    (∃ s, acquirePrologue accessMode timeout acquisitionTimeout =
        Except.ok s) ↔
      ((accessMode = some "READ" ∨ accessMode = some "WRITE") ∧
        timeoutFalsy timeout = false ∧
        (∀ x, timeout = some x → 0 ≤ x) ∧
        timeoutFalsy acquisitionTimeout = false) := by
  constructor
  · rintro ⟨s, hs⟩
    unfold acquirePrologue at hs
    split_ifs at hs with h1 h2 h3
    have hmode : accessMode = some "READ" ∨ accessMode = some "WRITE" := by
      tauto
    have ht : timeoutFalsy timeout = false := by
      simpa using h2
    have hat : timeoutFalsy acquisitionTimeout = false := by
      simpa using h3
    refine ⟨hmode, ht, ?_, hat⟩
    intro x hx
    subst hx
    by_contra hneg
    rw [not_le] at hneg
    rw [show deadlineFromTimeout (some x) =
      Except.error .deadlineRejectsNegative from by
        simp [deadlineFromTimeout, hneg]] at hs
    have hs' : (Except.error AcquireCheckError.deadlineRejectsNegative :
        Except AcquireCheckError String) = Except.ok s := hs
    exact Except.noConfusion hs'
  · rintro ⟨hmode, ht, hnn, hat⟩
    unfold acquirePrologue
    rw [if_neg (not_not_intro (by tauto))]
    rw [if_neg (by simp [ht])]
    rw [if_neg (by simp [hat])]
    rcases timeout with _ | x
    · simp [timeoutFalsy] at ht
    · have hx : ¬x < 0 := not_lt.mpr (hnn x rfl)
      have hdl : deadlineFromTimeout (some x) = Except.ok () := by
        simp [deadlineFromTimeout, hx]
      rcases hmode with h | h <;> subst h <;> rw [hdl] <;>
        exact ⟨_, rfl⟩

/-- C5 witness: a valid access mode with positive timeouts passes the
validation prologue. -/
theorem c5_acquire_validation_amended_witness :
    ∃ s, acquirePrologue (some "READ") (some 1) (some 2) =
      Except.ok s :=
  (c5_acquire_validation_amended (some "READ") (some 1) (some 2)).mpr
    ⟨Or.inl rfl, rfl,
      fun x hx => by
        injection hx with h
        rw [← h]
        norm_num,
      rfl⟩

/-- C6: whenever address selection fails because the relevant server set
is empty — `ReadServiceUnavailable` for READ, `WriteServiceUnavailable`
for WRITE — the failure is re-raised wrapped as `SessionExpired` naming
the access mode; in general any selection failure is wrapped this way. -/
theorem c6_selection_failure_wrapped (accessMode : String)
    (readers writers : List PyAddress) (inUse : PyAddress → ℕ) :
    (accessMode = "READ" → readers = [] →
      acquireSelectStep accessMode readers writers inUse =
        .error (.sessionExpiredTowards "READ" .readServiceUnavailable)) ∧
    (accessMode = "WRITE" → writers = [] →
      acquireSelectStep accessMode readers writers inUse =
        .error (.sessionExpiredTowards "WRITE"
          .writeServiceUnavailable)) ∧
    (∀ e, selectAddress accessMode readers writers inUse = .error e →
      acquireSelectStep accessMode readers writers inUse =
        .error (.sessionExpiredTowards accessMode e)) := by
  refine ⟨?_, ?_, ?_⟩
  · rintro rfl rfl
    rfl
  · rintro rfl rfl
    rfl
  · intro e he
    unfold acquireSelectStep
    rw [he]

/-- C6 witness: WRITE access with an empty writer set. -/
theorem c6_selection_failure_wrapped_witness :
    acquireSelectStep "WRITE" [cAddr] [] (fun _ => 0) =
      .error (.sessionExpiredTowards "WRITE" .writeServiceUnavailable) :=
  (c6_selection_failure_wrapped "WRITE" [cAddr] [] (fun _ => 0)).2.1 rfl
    rfl

/-- C8: in the managed-transaction loop, a non-retryable driver/protocol
error is re-raised immediately after the session disconnect (the
disconnect counter is bumped exactly once); a retryable error is appended
to the error history; when the elapsed time since the end of the first
attempt exceeds `max_transaction_retry_time` the loop gives up, raising
the last recorded error, or `ServiceUnavailable("Transaction failed")`
when the history is empty. -/
theorem c8_run_transaction_errors (maxT : ℚ) (clock : ℕ → ℚ)
    (rest : List TxOutcome) (x : ℚ) (t0 : Option ℚ) (ci ci' : ℕ)
    (errors : List ℕ) (d e : ℕ) :
    (runTx maxT clock (.err false e :: rest) t0 ci' errors d =
      some (.raised (.driver e), d + 1)) ∧
    (maxT < clock ci - x →
      runTx maxT clock (.err true e :: rest) (some x) ci errors d =
        some (.raised (giveUpError (errors ++ [e])), d + 1)) ∧
    (¬(maxT < clock ci - x) →
      runTx maxT clock (.err true e :: rest) (some x) ci errors d =
        runTx maxT clock rest (some x) (ci + 1) (errors ++ [e])
          (d + 1)) ∧
    (giveUpError [] = .serviceUnavailable "Transaction failed") ∧
    (∀ es, giveUpError (es ++ [e]) = .driver e) := by
  refine ⟨rfl, ?_, ?_, rfl, ?_⟩
  · intro h
    simp only [runTx, Bool.not_true, Bool.false_eq_true, if_false,
      if_pos h]
  · intro h
    simp only [runTx, Bool.not_true, Bool.false_eq_true, if_false,
      if_neg h]
  · intro es
    simp [giveUpError, List.getLast?_concat]

/-- C8 witness: a retryable error with the elapsed time already past the
cut-off gives up and re-raises that error. -/
theorem c8_run_transaction_errors_witness :
    runTx 5 (fun n => 2 * n) [.err true 7] (some 0) 3 [] 0 =
      some (.raised (.driver 7), 1) := by
  have h := (c8_run_transaction_errors 5 (fun n => 2 * n) [] 0 (some 0) 3
    0 [] 0 7).2.1 (by norm_num)
  have h5 := (c8_run_transaction_errors 5 (fun n => 2 * n) [] 0 (some 0) 3
    0 [] 0 7).2.2.2.2 []
  rw [h]
  simp only [List.nil_append] at h5 ⊢
  rw [h5]

/-- C4: `fetch_routing_table` returns a parsed routing table iff the
fetched routing information contains at least one router and at least one
reader (an empty writer set is not an error); it returns `None` on
recoverable errors (`ServiceUnavailable`, `SessionExpired`, non-fatal
`Neo4jError`) or an empty response or when routers or readers are
missing; and it re-raises a Neo4j-level error exactly when that error is
flagged fatal-during-discovery. -/
theorem c4_fetch_routing_table_criteria (db : Option String) (now : ℚ)
    (outcome : FetchOutcome) :
    (∀ e, fetchRoutingTable db now outcome = .error e ↔
      outcome = .error (.neo4jError true) ∧ e = .neo4jError true) ∧
    (∀ t, fetchRoutingTable db now outcome = .ok (some t) ↔
      ∃ info, outcome = .ok (some info) ∧
        t = parseRoutingInfo (reportedDb info db) info.servers
          info.ttl now ∧
        t.routers ≠ [] ∧ t.readers ≠ []) ∧
    (outcome = .error .serviceUnavailable ∨
      outcome = .error .sessionExpired ∨
      outcome = .error (.neo4jError false) ∨ outcome = .ok none →
      fetchRoutingTable db now outcome = .ok none) ∧
    (∀ info, outcome = .ok (some info) →
      ((parseRoutingInfo (reportedDb info db) info.servers info.ttl
          now).routers = [] ∨
        (parseRoutingInfo (reportedDb info db) info.servers info.ttl
          now).readers = []) →
      fetchRoutingTable db now outcome = .ok none) := by
  refine ⟨fetch_error_iff db now outcome, fetch_ok_some_iff db now outcome,
    ?_, ?_⟩
  · rintro (rfl | rfl | rfl | rfl) <;> rfl
  · rintro info rfl hmiss
    simp only [fetchRoutingTable]
    split_ifs with h1 h2
    · rfl
    · rfl
    · exfalso
      rcases hmiss with hm | hm
      · exact h1 (by simp [hm])
      · exact h2 (by simp [hm])

/-- C4 witness: a `ServiceUnavailable` during fetch yields `None`. -/
theorem c4_fetch_routing_table_criteria_witness :
    fetchRoutingTable none 0 (.error .serviceUnavailable) =
      Except.ok none :=
  (c4_fetch_routing_table_criteria none 0
    (.error .serviceUnavailable)).2.2.1 (Or.inl rfl)

/-- C10: a plain `Address`'s `unresolved` is the address itself; a
`ResolvedAddress` built from 2 or 4 address parts with original host name
h has `unresolved` equal to the plain `Address` with host h and the same
remaining parts; resolving a well-formed plain address and taking
`unresolved` round-trips back to it; and `update_connection_pool` keeps a
pooled connection exactly when it was pooled and either its (resolved)
address's `unresolved` form is a member of the routing table's
(unresolved-keyed) server set, or the connection is in use — the base
`deactivate` it delegates to closes only idle connections. -/
theorem c10_unresolved_round_trip :
    (∀ p, (PyAddress.plain p).unresolved = some (.plain p)) ∧
    (∀ p h, (p.length = 2 ∨ p.length = 4) →
      (PyAddress.resolved p h).unresolved =
        some (.plain (PyVal.str h :: p.tail))) ∧
    (∀ hn rest ip, (rest.length = 1 ∨ rest.length = 3) →
      (resolveOne (.plain (PyVal.str hn :: rest)) ip).unresolved =
        some (.plain (PyVal.str hn :: rest))) ∧
    (∀ st db now (c : PyAddress × Bool),
      c ∈ (updateConnectionPoolN st db now).connections ↔
        c ∈ st.connections ∧
          ((∃ s ∈ (getOrCreateRT st db now).2.serverSet,
            c.1.unresolved = some s) ∨ c.2 = true)) := by
  refine ⟨fun p => rfl, ?_, ?_, ?_⟩
  · intro p h hlen
    rcases p with _ | ⟨a, t⟩
    · rcases hlen with hl | hl <;> simp at hl
    · simp only [PyAddress.unresolved, addressNew, List.tail_cons]
      rw [if_pos (by simpa using hlen)]
  · intro hn rest ip hlen
    simp only [resolveOne, PyAddress.parts, PyAddress.unresolved,
      addressNew, List.tail_cons]
    rw [if_pos (by simpa using hlen)]
  · intro st db now c
    simp only [updateConnectionPoolN, List.mem_filter,
      getOrCreateRT_connections, List.any_eq_true, decide_eq_true_eq,
      Bool.or_eq_true]

/-- C2 counterexample: a concrete run of `ensure_routing_table_is_fresh`
under WRITE access in which the router reports one router and one reader
but no writers — the call performs the update and returns `True`, yet the
routing table stored for the requested database is not Fresh for WRITE
(its writer set is empty), refuting the claim that a `true` return always
leaves the table Fresh for the access mode. -/
theorem c2_counterexample :
    ensureRoutingTableIsFresh cOracle cResolver "WRITE" none 10 5 false
        (npoolInit cAddr none 0) =
      Except.ok (true, cFinalState) ∧
    alLookup cFinalState.routingTables none = some cFinalTable ∧
    cFinalTable.isFresh false 10 = false := by
  refine ⟨by with_unfolding_all rfl, by rfl, by with_unfolding_all rfl⟩

/-- C2 (amended): `ensure_routing_table_is_fresh` returns `false` and
leaves the pool unchanged when the stored table for the requested database
is already Fresh for the access mode; and whenever it returns `true`, an
update was performed: some database name — the *server-reported* one,
which may differ from the requested one — now maps to a table whose
freshness clock was restarted at the current time with at least one router
and one reader, and that table is Fresh for READ iff its TTL is positive,
while Freshness for WRITE additionally requires the fetched writer set to
be non-empty (the table stored for the *requested* database need not be
fresh at all). -/
theorem c2_ensure_fresh_amended (oracle : PyAddress → FetchOutcome)
    (resolver : PyAddress → List PyAddress) (accessMode : String)
    (db : Option String) (now purgeDelay : ℚ) (dl : Bool) (st : NPool)
    (httl : ∀ a info, oracle a = .ok (some info) → 0 ≤ info.ttl)
    (hpd : 0 ≤ purgeDelay) :
    (∀ rt, alLookup st.routingTables db = some rt →
      rt.isFresh (accessMode = "READ") now = true →
      ensureRoutingTableIsFresh oracle resolver accessMode db now
        purgeDelay dl st = .ok (false, st)) ∧
    (∀ st', ensureRoutingTableIsFresh oracle resolver accessMode db now
        purgeDelay dl st = .ok (true, st') →
      ∃ db' rt', alLookup st'.routingTables db' = some rt' ∧
        rt'.lastUpdatedTime = now ∧ rt'.routers ≠ [] ∧
        rt'.readers ≠ [] ∧
        rt'.isFresh true now = decide (0 < rt'.ttl) ∧
        rt'.isFresh false now =
          (decide (0 < rt'.ttl) && !rt'.writers.isEmpty)) := by
  constructor
  · intro rt hl hf
    simp only [ensureRoutingTableIsFresh,
      getOrCreateRT_of_lookup_some st db now rt hl]
    rw [if_pos hf]
  · intro st' h
    simp only [ensureRoutingTableIsFresh] at h
    split_ifs at h with hf
    · exact absurd h (by simp)
    · split at h
      · exact absurd h (by simp)
      · next st2 heq =>
          simp only [Except.ok.injEq, Prod.mk.injEq, true_and] at h
          have h1 := updateRoutingTable_ok_fresh oracle resolver db now
            dl _ st2 httl heq
          have h2 := updateConnectionPoolN_fresh st2 db now h1
          have h3 := purge_keeps_fresh _ now purgeDelay hpd h2
          rw [← h]
          obtain ⟨db', rt', hl, hlt, hrt, hrd, httl'⟩ := h3
          refine ⟨db', rt', hl, hlt, hrt, hrd, ?_, ?_⟩
          · unfold RoutingTable.isFresh
            rw [hlt]
            rw [show decide (now < now + rt'.ttl) =
              decide (0 < rt'.ttl) from
              decide_eq_decide.mpr (lt_add_iff_pos_right now)]
            have hre : rt'.readers.isEmpty = false := by
              cases hc : rt'.readers
              · exact absurd hc hrd
              · rfl
            rw [if_pos rfl, hre]
            simp
          · unfold RoutingTable.isFresh
            rw [hlt]
            rw [show decide (now < now + rt'.ttl) =
              decide (0 < rt'.ttl) from
              decide_eq_decide.mpr (lt_add_iff_pos_right now)]
            rfl

/-- C2 witness: a pool whose default table is fresh for WRITE returns
`false` with the state unchanged, and the concrete counterexample run
returning `true` yields the freshly updated server-reported table. -/
theorem c2_ensure_fresh_amended_witness :
    ensureRoutingTableIsFresh cOracle cResolver "WRITE" none 10 5 false
        cFreshPool = .ok (false, cFreshPool) ∧
    (∃ db' rt',
      alLookup cFinalState.routingTables db' = some rt' ∧
      rt'.lastUpdatedTime = 10 ∧ rt'.routers ≠ [] ∧ rt'.readers ≠ [] ∧
      rt'.isFresh true 10 = decide (0 < rt'.ttl) ∧
      rt'.isFresh false 10 =
        (decide (0 < rt'.ttl) && !rt'.writers.isEmpty)) := by
  have httl : ∀ a info, cOracle a = .ok (some info) → 0 ≤ info.ttl := by
    intro a info hinfo
    have : info = { servers := [(Role.route, [cAddr]),
        (Role.read, [cAddr])], ttl := 100, db := none } := by
      simpa [cOracle] using hinfo.symm
    rw [this]
    norm_num
  constructor
  · exact (c2_ensure_fresh_amended cOracle cResolver "WRITE" none 10 5
      false cFreshPool httl (by norm_num)).1 cFreshTable rfl
      (by with_unfolding_all rfl)
  · exact (c2_ensure_fresh_amended cOracle cResolver "WRITE" none 10 5
      false (npoolInit cAddr none 0) httl (by norm_num)).2 cFinalState
      (by with_unfolding_all rfl)

/-- C3: `update_routing_table` contacts routers in exactly this order —
if the stored table is flagged `initialized_without_writers`, the first
initial routing address R0 first; then every router of the existing
router set minus R0, each resolved to its endpoints in emission order;
then, only if the initial-address path was not taken first, R0 last —
stopping at the first success; if some candidate succeeds the update
returns normally, and if every router is exhausted without success it
raises `ServiceUnavailable("Unable to retrieve routing information")`.
(The hypotheses restrict to runs whose deadline has not expired and whose
routers raise no fatal-during-discovery error, the situation the claim
describes.) -/
theorem c3_update_routing_table_order (oracle : PyAddress → FetchOutcome)
    (resolver : PyAddress → List PyAddress) (db : Option String)
    (now : ℚ) (st : NPool) (r0 : PyAddress)
    (hnf : ∀ a, oracle a ≠ .error (.neo4jError true))
    (hfi : firstInitialRoutingAddress (getOrCreateRT st db now).1 =
      some r0) :
    (updateRoutingTable oracle resolver db now false st).1 =
      (tryTrace (fetchSucceeds oracle db now)
        (specRouterOrder
          (getOrCreateRT st db now).2.initializedWithoutWriters r0
          (getOrCreateRT st db now).2.routers.dedup resolver)).2 ∧
    ((tryTrace (fetchSucceeds oracle db now)
        (specRouterOrder
          (getOrCreateRT st db now).2.initializedWithoutWriters r0
          (getOrCreateRT st db now).2.routers.dedup resolver)).1 =
        true →
      ∃ st', (updateRoutingTable oracle resolver db now false st).2 =
        .ok st') ∧
    ((tryTrace (fetchSucceeds oracle db now)
        (specRouterOrder
          (getOrCreateRT st db now).2.initializedWithoutWriters r0
          (getOrCreateRT st db now).2.routers.dedup resolver)).1 =
        false →
      (updateRoutingTable oracle resolver db now false st).2 =
        .error (.serviceUnavailableMsg
          "Unable to retrieve routing information")) := by
  have key := runBlocks_trace oracle resolver db now hnf
    ((if (getOrCreateRT st db now).2.initializedWithoutWriters
        then [[r0]] else []) ++
      [(getOrCreateRT st db now).2.routers.dedup.filter
        (fun x => x ≠ r0)] ++
      (if (getOrCreateRT st db now).2.initializedWithoutWriters
        then [] else [[r0]]))
    (getOrCreateRT st db now).1
  rw [specRouterOrder_eq_flatBlocks] at key
  refine ⟨?_, ?_, ?_⟩
  · simp only [updateRoutingTable, hfi]
    split
    · exact key.1
    · exact key.1
    · exact key.1
  · intro hflag
    obtain ⟨st', hst'⟩ := key.2.1 hflag
    refine ⟨st', ?_⟩
    simp only [updateRoutingTable, hfi, hst']
  · intro hflag
    obtain ⟨st', hst'⟩ := key.2.2 hflag
    simp only [updateRoutingTable, hfi, hst']

/-- C3 witness: a single-router pool whose only router fails with
`ServiceUnavailable` — exactly R0 is contacted and the update raises
`ServiceUnavailable("Unable to retrieve routing information")`. -/
theorem c3_update_routing_table_order_witness :
    (updateRoutingTable cFailOracle cResolver none 0 false
        (npoolInit cAddr none 0)).2 =
      .error (.serviceUnavailableMsg
        "Unable to retrieve routing information") ∧
    (updateRoutingTable cFailOracle cResolver none 0 false
        (npoolInit cAddr none 0)).1 = [cAddr] := by
  have hnf : ∀ a, cFailOracle a ≠
      Except.error (FetchError.neo4jError true) := by
    intro a h
    simp [cFailOracle] at h
  have h := c3_update_routing_table_order cFailOracle cResolver none 0
    (npoolInit cAddr none 0) cAddr hnf (by rfl)
  constructor
  · exact h.2.2 (by decide)
  · rw [h.1]
    decide

/-- C10 witness: a concrete resolved IPv4 address round-trips, and
`update_connection_pool` on a pool holding one in-use and one idle
connection to a non-member address keeps exactly the in-use one. -/
theorem c10_unresolved_round_trip_witness :
    (PyAddress.resolved [PyVal.str "10.0.0.1", PyVal.int 7687]
        "example.com").unresolved =
      some (.plain [PyVal.str "example.com", PyVal.int 7687]) ∧
    (cDeadAddr, true) ∈
      (updateConnectionPoolN cConnPool none 10).connections ∧
    (updateConnectionPoolN cConnPool none 10).connections =
      [(cDeadAddr, true)] := by
  refine ⟨c10_unresolved_round_trip.2.1
    [PyVal.str "10.0.0.1", PyVal.int 7687] "example.com" (Or.inl rfl),
    ?_, by decide⟩
  exact (c10_unresolved_round_trip.2.2.2 cConnPool none 10
    (cDeadAddr, true)).mpr ⟨by decide, Or.inr rfl⟩

end Neo4jSpec
